import Mathlib

/-!
Verification of the slate HTTP server core: a shallow embedding of the
route-table compiler and matcher (`RouterHandler`), the middleware chain,
the request authentication/authorization helpers, the body-size budget of
`Request.parse`, and the server shutdown state machine, together with
theorems settling the specification claims about them.

Sources embedded (TypeScript):
- `router/index.ts` (`RouterHandler`: `addRoute`, `compileRouteRegex`,
  `start`, `execute`),
- `middleware/index.ts` (`MiddlewareHandler`, `execute`) and the three
  built-in middlewares (logger, shutdown, no-trailing-slash),
- `core/request.ts` (`Request.isAuthorized`, `Request.authenticate`,
  the non-multipart chunk loop of `Request.parse`),
- `core/response.ts` (status/header helpers),
- `server.ts` (`Server.shutdown`, the request handler wiring).
-/

namespace Slate

/-! ## Association-list utilities

JavaScript `Map` and plain objects (`Record`) preserve insertion order and
have unique keys.  We model both as association lists: lookup returns the
first (hence only) binding, and an update keeps the key at its original
position while a fresh key is appended at the end, exactly as JS does. -/

/-- First binding for a key, as JS `map.get(k)` / `obj[k]`. -/
def lookupAssoc {α : Type} (k : String) : List (String × α) → Option α
  | [] => none
  | (k', v) :: rest => if k' = k then some v else lookupAssoc k rest

/-- JS `obj[k] = v` / `map.set(k, v)`: replace in place, else append. -/
def upsertAssoc {α : Type} (k : String) (v : α) : List (String × α) → List (String × α)
  | [] => [(k, v)]
  | (k', v') :: rest =>
    if k' = k then (k, v) :: rest else (k', v') :: upsertAssoc k v rest

/-- Lexicographic comparison on character lists by code point (JS compares
UTF-16 code units; for the ASCII method names involved the orders agree). -/
def strLtChars : List Char → List Char → Bool
  | [], [] => false
  | [], _ :: _ => true
  | _ :: _, [] => false
  | a :: as, b :: bs =>
    if a.val < b.val then true
    else if b.val < a.val then false
    else strLtChars as bs

/-- Lexicographic order on strings. -/
def strLt (a b : String) : Bool := strLtChars a.data b.data

/-- Insert a string into an already-sorted list (lexicographic order). -/
def insertSorted (s : String) : List String → List String
  | [] => [s]
  | t :: rest => if strLt s t then s :: t :: rest else t :: insertSorted s rest

/-- JS `Array.prototype.sort()` on strings: lexicographic sort. -/
def sortStrings (l : List String) : List String :=
  l.foldr insertSorted []

/-- JS `array.join(', ')`. -/
def joinComma (l : List String) : String :=
  String.intercalate ", " l

/-- JS `s.startsWith(c)` for a one-character needle. -/
def headIs (s : String) (c : Char) : Bool :=
  match s.data with
  | [] => false
  | d :: _ => d = c

/-- JS `s.endsWith(c)` for a one-character needle. -/
def lastIs (s : String) (c : Char) : Bool :=
  match s.data.getLast? with
  | some d => d = c
  | none => false

/-! ## Response model (`core/response.ts`)

The response wrapper holds the raw status code (Node default `200`), the
outgoing headers, and the staged cache-control options that `Response.cache`
stores for later application.  All header names at the call sites are
already lower-case, so we store them verbatim. -/

/-- Models `ResponseCacheOptions` (`private`/`public` renamed, they are keywords). -/
structure CacheOpts where
  isPrivate : Bool := false
  isPublic : Bool := false
  noStore : Bool := false
  noCache : Bool := false
  maxAge : Option Nat := none
deriving DecidableEq, Repr

/-- Models `ResponseSecurityOptions`. -/
structure SecurityOpts where
  noSniff : Bool := false
  xFrame : Option String := none
  referrer : Option String := none
deriving DecidableEq, Repr

/-- The observable state of a `Response`. -/
structure ResSt where
  status : Nat := 200
  headers : List (String × String) := []
  cacheStaged : Option CacheOpts := none
deriving DecidableEq, Repr

namespace ResSt

/-- A fresh response, as created per request. -/
def init : ResSt := {}

/-- Models `Response.status(code)`. -/
def setStatus (res : ResSt) (code : Nat) : ResSt :=
  { res with status := code }

/-- Models `Response.header(key, value)` (Node `setHeader` replaces). -/
def setHeader (res : ResSt) (k v : String) : ResSt :=
  { res with headers := upsertAssoc k v res.headers }

/-- Read a header back. -/
def getHeader (res : ResSt) (k : String) : Option String :=
  lookupAssoc k res.headers

/-- Models `Response.isError`: 4xx or 5xx. -/
def isError (res : ResSt) : Bool :=
  400 ≤ res.status && res.status < 600

/-- Models `Response.cache(options)` with options present: stage them. -/
def stageCache (res : ResSt) (c : CacheOpts) : ResSt :=
  { res with cacheStaged := some c }

end ResSt

namespace Response

/-- Models `Response.security(options)`. -/
def security (res : ResSt) (o : SecurityOpts) : ResSt :=
  let res := if o.noSniff then res.setHeader "x-content-type-options" "nosniff" else res
  let res := match o.xFrame with
    | some v => res.setHeader "x-frame-options" v
    | none => res
  match o.referrer with
  | some v => res.setHeader "referrer-policy" v
  | none => res

/-- Models `Response.badRequest()` (details ignored by the state model). -/
def badRequest (res : ResSt) : ResSt := res.setStatus 400

/-- Models `Response.unauthorized()`. -/
def unauthorized (res : ResSt) : ResSt := res.setStatus 401

/-- Models `Response.forbidden()`. -/
def forbidden (res : ResSt) : ResSt := res.setStatus 403

/-- Models `Response.notFound()`. -/
def notFound (res : ResSt) : ResSt := res.setStatus 404

/-- Models `Response.payloadTooLarge()`. -/
def payloadTooLarge (res : ResSt) : ResSt := res.setStatus 413

/-- Models `Response.serviceUnavailable()`. -/
def serviceUnavailable (res : ResSt) : ResSt := res.setStatus 503

/-- Models `Response.methodNotAllowed(supportedMethods)`: status 405, and when the
method list is non-empty the `allow` header carries the alphabetically
sorted, comma-joined list. -/
def methodNotAllowed (res : ResSt) (supportedMethods : List String) : ResSt :=
  let res := res.setStatus 405
  if supportedMethods.isEmpty then res
  else res.setHeader "allow" (joinComma (sortStrings supportedMethods))

/-- Models `Response.redirect(url, code)`: status plus `location` header. -/
def redirect (res : ResSt) (url : String) (code : Nat) : ResSt :=
  (res.setStatus code).setHeader "location" url

end Response

/-! ## Route pattern compilation (`RouterHandler.compileRouteRegex`)

The source scans the path character by character.  On `{` it counts
balanced braces to extract the parameter text, splits it on the first `:`
into name and optional sub-regex (default `[^/]+`), and emits a named
capture group; any other character is emitted literally, regex-escaped when
it is one of `^$\.*+?()[]`.  The final pattern is `^…$` and the regex is
compiled with the `i` flag unless the route is case-sensitive. -/

/-- The reserved catch-all route path pattern (`CATCH_ALL_ROUTE_PATH`). -/
def catchAllRoutePath : String := "/\x7bpath:.*\x7d"

/-- The characters `compileRouteRegex` escapes with a backslash. -/
def escapedChars : List Char :=
  ['^', '$', '\\', '.', '*', '+', '?', '(', ')', '[', ']']

/-- The inner brace-counting loop of `compileRouteRegex`: called just after
an opening `{` with `braceCount = 1`, it consumes characters (updating the
count) until the braces balance or the string ends, returning the parameter
text and the remaining characters.  The character that closes the braces is
consumed but not part of the parameter. -/
def scanParam : List Char → Nat → List Char → List Char × List Char
  | [], _, acc => (acc.reverse, [])
  | c :: rest, n, acc =>
    let n' := if c = '{' then n + 1 else if c = '}' then n - 1 else n
    if n' = 0 then (acc.reverse, rest)
    else scanParam rest n' (c :: acc)

/-- The remainder returned by `scanParam` is no longer than its input. -/
theorem scanParam_rest_length (l : List Char) :
    ∀ n acc, (scanParam l n acc).2.length ≤ l.length := by
  induction l with
  | nil => intro n acc; simp [scanParam]
  | cons c rest ih =>
    intro n acc
    by_cases h1 : (if c = '{' then n + 1 else if c = '}' then n - 1 else n) = 0
    · simp [scanParam, h1]
      try omega
    · simp only [scanParam, List.length_cons]
      rw [if_neg h1]
      exact Nat.le_succ_of_le (ih _ _)

/-- JS `param.split(/:(.+)/)` destructured as `[name, regex]`: split at the
first `:` that is followed by at least one character; otherwise the whole
text is the name and the regex stays at its default. -/
def splitOnFirstColon : List Char → List Char × Option (List Char)
  | [] => ([], none)
  | c :: rest =>
    if c = ':' ∧ rest ≠ [] then ([], some rest)
    else
      let (n, r) := splitOnFirstColon rest
      (c :: n, r)

/-- One literal character of the pattern, escaped when required. -/
def escapeChar (c : Char) : List Char :=
  if escapedChars.contains c then ['\\', c] else [c]

/-- The body of the compiled pattern (everything between `^` and `$`),
written with explicit fuel so that the kernel can evaluate it; every
recursive call strictly shrinks the path, so `path.length + 1` units of
fuel always suffice (`compileBodyF_adequate`). -/
def compileBodyF : Nat → List Char → List Char
  | 0, _ => []
  | _ + 1, [] => []
  | fuel + 1, c :: rest =>
    if c = '{' then
      let (param, rest') := scanParam rest 1 []
      let (name, re) := splitOnFirstColon param
      let re := re.getD "[^/]+".data
      ('(' :: '?' :: '<' :: name ++ '>' :: re ++ [')']) ++ compileBodyF fuel rest'
    else
      escapeChar c ++ compileBodyF fuel rest

/-- Any two sufficient fuels give the same compiled body. -/
theorem compileBodyF_adequate :
    ∀ f₁ f₂ l, l.length < f₁ → l.length < f₂ →
      compileBodyF f₁ l = compileBodyF f₂ l := by
  intro f₁
  induction f₁ with
  | zero => intro f₂ l h₁ _; exact absurd h₁ (Nat.not_lt_zero _).elim
  | succ f₁ ih =>
    intro f₂ l h₁ h₂
    match f₂, l with
    | 0, l => exact absurd h₂ (Nat.not_lt_zero _)
    | f₂ + 1, [] => rfl
    | f₂ + 1, c :: rest =>
      simp only [compileBodyF]
      have hrest : rest.length < f₁ := Nat.lt_of_succ_lt_succ h₁
      have hrest₂ : rest.length < f₂ := Nat.lt_of_succ_lt_succ h₂
      split
      · have hscan := scanParam_rest_length rest 1 []
        rw [ih f₂ (scanParam rest 1 []).2
              (Nat.lt_of_le_of_lt hscan hrest)
              (Nat.lt_of_le_of_lt hscan hrest₂)]
      · rw [ih f₂ rest hrest hrest₂]

/-- The compiled body of a route path, with adequate fuel. -/
def compileBody (path : List Char) : List Char :=
  compileBodyF (path.length + 1) path

/-- Models `RouterHandler.compileRouteRegex`: the compiled pattern string (anchored
at both ends) together with the case-insensitivity of the regex (`true`
unless the route opts into case sensitivity, mirroring the `'i'` flag). -/
def compileRouteRegex (path : String) (isCaseSensitive : Bool) : String × Bool :=
  (String.mk ('^' :: compileBody path.data ++ ['$']), !isCaseSensitive)

/-! ## A matcher for compiled patterns

`RouterHandler.execute` runs `mapping.regex.exec(req.url.pathname)`.  We
interpret the generated patterns directly: literal characters (raw or
backslash-escaped), the terminal `$` anchor, and named capture groups
`(?<name>sub)` whose sub-regex is either the default `[^/]+` (one or more
non-slash characters) or `.*` (anything), the two forms the verified claims
exercise; any other group sub-regex makes the matcher fail.  Groups are
matched greedily with backtracking, as the JS engine does, so the captured
substrings agree with `RegExp.exec`.  Case-insensitive matching lower-cases
both sides (the paths involved are ASCII). -/

/-- The supported capture-group sub-regexes. -/
inductive GroupSub where
  | nonSlashPlus
  | dotStar
deriving DecidableEq, Repr

/-- Parse `name>sub)` (the part of a group after `(?<`), returning the group
name, its sub-regex and the rest of the pattern. -/
def parseGroupBody (l : List Char) : Option (List Char × GroupSub × List Char) :=
  let name := l.takeWhile (· ≠ '>')
  match l.drop name.length with
  | '>' :: r2 =>
    let sub := r2.takeWhile (· ≠ ')')
    match r2.drop sub.length with
    | ')' :: r4 =>
      if sub = "[^/]+".data then some (name, GroupSub.nonSlashPlus, r4)
      else if sub = ".*".data then some (name, GroupSub.dotStar, r4)
      else none
    | _ => none
  | _ => none

/-- Character comparison under the optional `i` flag. -/
def charMatch (ci : Bool) (p c : Char) : Bool :=
  if ci then p.toLower = c.toLower else p = c

/-- Captured groups: name and captured substring, in pattern order. -/
abbrev Caps := List (String × String)

/-- Greedy backtracking over the length of one capture: try capturing
`k, k-1, …` characters (down to `0` only for `.*`), continuing the match
with `cont` on the remaining input. -/
def tryCapLen (cont : List Char → Option Caps) (name : String)
    (input : List Char) (allowZero : Bool) : Nat → Option Caps
  | 0 =>
    if allowZero then
      (cont input).map (fun caps => (name, "") :: caps)
    else none
  | k + 1 =>
    match (cont (input.drop (k + 1))).map
        (fun caps => (name, String.mk (input.take (k + 1))) :: caps) with
    | some r => some r
    | none => tryCapLen cont name input allowZero k

/-- Match a compiled pattern body against an input, with fuel bounding the
recursion depth over the pattern (one unit per pattern item; every
recursive call strictly shrinks the pattern, so `pat.length + 1` always
suffices). -/
def matchPatF (ci : Bool) : Nat → List Char → List Char → Option Caps
  | 0, _, _ => none
  | _ + 1, [], input => if input.isEmpty then some [] else none
  | fuel + 1, p :: pat, input =>
    if p = '$' ∧ pat = [] then
      if input.isEmpty then some [] else none
    else
      match p, pat with
      | '\\', c :: rest =>
        match input with
        | d :: input' =>
          if charMatch ci c d then matchPatF ci fuel rest input' else none
        | [] => none
      | '(', '?' :: '<' :: l =>
        match parseGroupBody l with
        | some (name, sub, rest) =>
          let cont := matchPatF ci fuel rest
          match sub with
          | GroupSub.nonSlashPlus =>
            tryCapLen cont (String.mk name) input false
              ((input.takeWhile (· ≠ '/')).length)
          | GroupSub.dotStar =>
            tryCapLen cont (String.mk name) input true input.length
        | none => none
      | p, pat =>
        match input with
        | d :: input' =>
          if charMatch ci p d then matchPatF ci fuel pat input' else none
        | [] => none

/-- Models `mapping.regex.exec(pathname)`: the compiled pattern must start with the
`^` anchor; the groups of a successful match are returned in pattern
order. -/
def regexMatch (pattern : String) (ci : Bool) (input : String) : Option Caps :=
  match pattern.data with
  | '^' :: body => matchPatF ci (body.length + 1) body input.data
  | _ => none

/-! ## Request model (`core/request.ts`)

The request wraps the method, the parsed URL, the mutable authentication
state and the mutable parameter map.  Authentication strategies are
abstracted as an oracle from strategy name to the `RequestAuth` the
registered strategy would produce (`none` models an unregistered name,
which `AuthHandler.authenticate` answers with a warning and `false`).  The
response-side effects of `req.parse()` and `req.validate()` — which run
after authentication and parameter binding and may put the response into an
error state — are abstracted as response transformers carried by the
request. -/

/-- Models `RequestAuth`: the authentication state attached to a request. -/
structure RequestAuthData where
  isAuthenticated : Bool := false
  strategy : Option String := none
  scopes : Option (List String) := none
deriving DecidableEq, Repr

/-- The request state threaded through the pipeline. -/
structure Req where
  method : String := "GET"
  pathname : String := "/"
  queryString : String := ""
  /-- The snapshot of the server shutdown flag taken when the request was
  created (`requestHandler` passes `isShuttingDown: this.isShuttingDown`). -/
  isShuttingDown : Bool := false
  /-- Registered auth strategies: what `strategy.authenticate(req)` yields. -/
  strategies : String → Option RequestAuthData := fun _ => none
  auth : RequestAuthData := {}
  params : List (String × String) := []
  /-- Effect of `await req.parse()` on the response state. -/
  parseEffect : ResSt → ResSt := id
  /-- Effect of `req.validate()` on the response state. -/
  validateEffect : ResSt → ResSt := id

namespace Request

/-- Models `AuthHandler.authenticate(req, name)`: an unknown strategy fails; a
known one attaches its `RequestAuth` (tagged with the strategy name) to the
request exactly when it authenticates, and reports success accordingly. -/
def authenticate (req : Req) (name : String) : Req × Bool :=
  match req.strategies name with
  | none => (req, false)
  | some auth =>
    if auth.isAuthenticated then
      ({ req with auth := { auth with strategy := some name } }, true)
    else (req, false)

/-- A route scope declaration: `scope?: string | string[]`. -/
inductive ScopeSpec where
  | one (s : String)
  | many (l : List String)
deriving DecidableEq, Repr

/-- The requested scopes as an array (`Array.isArray(scope) ? scope : [scope]`). -/
def ScopeSpec.toList : ScopeSpec → List String
  | .one s => [s]
  | .many l => l

/-- The `for (const s of scopes)` loop of `Request.isAuthorized`: scopes
prefixed `+` must be granted and scopes prefixed `!` must not be, each
failing immediately; unprefixed scopes accumulate into `orScopes`, and at
the end at least one of them must be granted unless there are none. -/
def isAuthorizedLoop (granted : List String) :
    List String → List String → Bool
  | [], orScopes => orScopes.isEmpty || orScopes.any granted.contains
  | s :: rest, orScopes =>
    if headIs s '+' then
      if granted.contains (s.drop 1) then isAuthorizedLoop granted rest orScopes
      else false
    else if headIs s '!' then
      if granted.contains (s.drop 1) then false
      else isAuthorizedLoop granted rest orScopes
    else isAuthorizedLoop granted rest (orScopes ++ [s])

/-- Models `Request.isAuthorized(scope)`: `false` outright when the request's
authentication carries no scopes, otherwise the prefix-modifier loop. -/
def isAuthorized (req : Req) (scope : ScopeSpec) : Bool :=
  match req.auth.scopes with
  | none => false
  | some granted =>
    if granted.isEmpty then false
    else isAuthorizedLoop granted scope.toList []

end Request

/-! ## Middleware chain (`middleware/index.ts`)

An interceptor receives the request and response and either calls `next()`
— modelled as `pass` carrying the response it hands onward, the chain
returning `next()`'s result — or returns without calling it (`halt`,
carrying its final response).  `execute` walks the registered list through
an index-carrying continuation; we record the trace of invoked interceptor
indices (with whether each called `next`) and whether the final handler
ran. -/

/-- What one interceptor invocation does. -/
inductive MWStep where
  | halt (res : ResSt)
  | pass (res : ResSt)

/-- An interceptor. -/
def MW := Req → ResSt → MWStep

/-- Result of running a chain: final response, the `(index, calledNext)`
trace in invocation order, and whether the final handler was called. -/
structure MWResult where
  res : ResSt
  invoked : List (Nat × Bool) := []
  handlerRan : Bool := false
deriving DecidableEq, Repr

/-- The continuation of `execute`: run the interceptors from index `i`;
once the list is exhausted, call the final handler. -/
def mwExecAux (req : Req) (handler : ResSt → ResSt) :
    List MW → Nat → ResSt → MWResult
  | [], _, res => ⟨handler res, [], true⟩
  | mw :: rest, i, res =>
    match mw req res with
    | .halt res' => ⟨res', [(i, false)], false⟩
    | .pass res' =>
      let r := mwExecAux req handler rest (i + 1) res'
      ⟨r.res, (i, true) :: r.invoked, r.handlerRan⟩

/-- Models `execute(req, res, stack, handler)` for an already-flattened stack. -/
def mwExec (req : Req) (mws : List MW) (handler : ResSt → ResSt)
    (res : ResSt) : MWResult :=
  mwExecAux req handler mws 0 res

/-- Models `execute` with the source's `Middleware | Middleware[] | undefined`
stack: no middleware means the handler is called directly. -/
def mwExecStack (req : Req) (stack : Option (List MW))
    (handler : ResSt → ResSt) (res : ResSt) : MWResult :=
  match stack with
  | none => ⟨handler res, [], true⟩
  | some mws => mwExec req mws handler res

/-- Models `LoggerMiddleware`: logs and passes the response on unchanged. -/
def loggerMiddleware : MW := fun _ res => .pass res

/-- Models `ShutdownMiddleware`: when the server is shutting down, answer with a
`connection: close` header and 503 without calling `next()`. -/
def shutdownMiddleware : MW := fun req res =>
  if req.isShuttingDown then
    .halt ((res.setHeader "connection" "close") |> Response.serviceUnavailable)
  else .pass res

/-- Models `NoTrailingSlashMiddleware`: redirect (307) non-root paths that end in
a slash, stripping every trailing slash; otherwise pass on. -/
def noTrailingSlashMiddleware : MW := fun req res =>
  if req.pathname ≠ "" ∧ req.pathname ≠ "/" ∧ lastIs req.pathname '/' then
    let stripped := String.mk (req.pathname.data.reverse.dropWhile (· = '/')).reverse
    .halt (Response.redirect res
      ((if stripped = "" then "/" else stripped) ++ req.queryString) 307)
  else .pass res

/-- The `MiddlewareHandler` constructor always registers the three
framework middlewares first; `use` appends application middleware after
them. -/
def middlewareHandlerStack (app : List MW) : List MW :=
  [loggerMiddleware, shutdownMiddleware, noTrailingSlashMiddleware] ++ app

/-! ## Route table (`router/index.ts`)

A route declares its method(s), path pattern, optional flags and option
bundles, optional route middleware and a handler.  The route map is a JS
`Map` from path pattern to a mapping that owns the compiled matcher and a
method → route record.  Handlers are abstracted as response transformers;
the numeric `rid` identifies a route in dispatch results (the source pins
the route object itself onto the request). -/

/-- Models `route.method`: `'*' | HttpMethod | HttpMethod[]`. -/
inductive MethodSpec where
  | star
  | one (m : String)
  | many (ms : List String)
deriving DecidableEq, Repr

/-- Models `Array.isArray(route.method) ? route.method : [route.method]`. -/
def MethodSpec.toList : MethodSpec → List String
  | .star => ["*"]
  | .one m => [m]
  | .many ms => ms

/-- Models `route.auth?.strategy`: `string | string[]`. -/
inductive StratSpec where
  | one (s : String)
  | many (l : List String)
deriving DecidableEq, Repr

/-- The strategies as an array. -/
def StratSpec.toList : StratSpec → List String
  | .one s => [s]
  | .many l => l

/-- Models `RouteAuthOptions`. -/
structure RouteAuthOptions where
  strategy : Option StratSpec := none
  scope : Option Request.ScopeSpec := none
  isOptional : Bool := false

/-- JS truthiness of `route.auth?.strategy`: absent and the empty string
are falsy; an array (even empty) is truthy. -/
def stratTruthy : Option RouteAuthOptions → Bool
  | none => false
  | some a =>
    match a.strategy with
    | none => false
    | some (.one s) => s ≠ ""
    | some (.many _) => true

/-- The strategy list entered into the `for` loop when truthy. -/
def stratListOf : Option RouteAuthOptions → List String
  | some { strategy := some sp, .. } => sp.toList
  | _ => []

/-- Models `route.auth?.isOptional`, defaulted. -/
def isOptionalOf : Option RouteAuthOptions → Bool
  | some a => a.isOptional
  | none => false

/-- JS truthiness of `route.auth.scope` paired with its value. -/
def scopeOf : Option RouteAuthOptions → Option Request.ScopeSpec
  | some a =>
    match a.scope with
    | some (.one s) => if s = "" then none else some (.one s)
    | some (.many l) => some (.many l)
    | none => none
  | none => none

/-- Models `RoutePayloadOptions` (the fields the claims exercise). -/
structure RoutePayloadOptions where
  maxBytes : Option Nat := none
deriving DecidableEq, Repr

/-- A route definition. -/
structure Route where
  method : MethodSpec := .star
  path : String := "/"
  isCaseSensitive : Bool := false
  cache : Option CacheOpts := none
  auth : Option RouteAuthOptions := none
  security : Option SecurityOpts := none
  payload : Option RoutePayloadOptions := none
  middleware : Option (List MW) := none
  handler : Req → ResSt → ResSt := fun _ res => res
  /-- Identifies the route in dispatch results. -/
  rid : Nat := 0

/-- A router, reduced to what the dispatch pipeline consults. -/
structure RouterModel where
  middleware : Option (List MW) := none

/-- A route-table entry: the compiled matcher and the method record. -/
structure RouteMapping where
  router : Option RouterModel := none
  pattern : String
  ci : Bool
  methods : List (String × Route) := []

/-- The route map, in `Map` insertion order. -/
abbrev RouteMap := List (String × RouteMapping)

namespace RouterHandler

/-- The `for (const method of methods)` loop of `addRoute`. -/
def addMethods (ms : List (String × Route)) (route : Route) :
    List (String × Route) :=
  route.method.toList.foldl (fun acc m => upsertAssoc m route acc) ms

/-- Replace the value bound to a key, keeping its position. -/
def setAssoc {α : Type} (k : String) (v : α) : List (String × α) → List (String × α)
  | [] => []
  | (k', v') :: rest =>
    if k' = k then (k, v) :: rest else (k', v') :: setAssoc k v rest

/-- Models `RouterHandler.addRoute`: get or create the entry for the route's path
(compiling its regex on first sight) and record the route under each of its
methods. -/
def addRoute (map : RouteMap) (route : Route) (router : Option RouterModel := none) :
    RouteMap :=
  match lookupAssoc route.path map with
  | none =>
    let compiled := compileRouteRegex route.path route.isCaseSensitive
    map ++ [(route.path,
      { router := router, pattern := compiled.1, ci := compiled.2,
        methods := addMethods [] route })]
  | some entry =>
    setAssoc route.path { entry with methods := addMethods entry.methods route } map

/-- Register a list of routes in order (each through `addRoute`). -/
def registerRoutes (rs : List Route) : RouteMap :=
  rs.foldl (fun m r => addRoute m r none) []

/-- Models `RouterHandler.start`: ensure the catch-all route is the last entry of
the routing map (`delete` then re-`set` moves it to the end). -/
def start (map : RouteMap) : RouteMap :=
  match lookupAssoc catchAllRoutePath map with
  | none => map
  | some e =>
    (map.filter (fun ke => ke.1 ≠ catchAllRoutePath)) ++ [(catchAllRoutePath, e)]

/-- The route-selection loop of `execute`: the first entry whose compiled
matcher accepts the pathname wins, together with its captured groups. -/
def executeSelect (map : RouteMap) (pathname : String) :
    Option (String × Caps) :=
  map.findSome? (fun ke =>
    (regexMatch ke.2.pattern ke.2.ci pathname).map (fun caps => (ke.1, caps)))

/-- Models `mapping.methods[req.method] || mapping.methods['*']`. -/
def methodRoute (methods : List (String × Route)) (m : String) : Option Route :=
  match lookupAssoc m methods with
  | some r => some r
  | none => lookupAssoc "*" methods

/-- The outcome of dispatching a matched entry. -/
structure DispatchResult where
  res : ResSt
  req : Req
  /-- `rid` of the route pinned onto the request (`req.route = route`). -/
  pinned : Option Nat := none
  /-- The authentication strategies attempted, in order. -/
  attempts : List String := []
  /-- Whether `route.handler` was invoked. -/
  handlerRan : Bool := false

/-- The `for (const strategy of strategies)` loop: try each strategy until
one authenticates; returns the request (with any attached auth), the final
`isAuthenticated`, and the strategies attempted in order. -/
def authLoop (req : Req) : List String → Req × Bool × List String
  | [] => (req, false, [])
  | s :: rest =>
    match Request.authenticate req s with
    | (req', true) => (req', true, [s])
    | (req', false) =>
      let r := authLoop req' rest
      (r.1, r.2.1, s :: r.2.2)

/-- The tail of the route handler closure after authentication: copy the
named captures into the request's parameter map, parse and validate, stop
if the response is in error, and otherwise run the route middleware (if
any) around the route handler. -/
def finishDispatch (route : Route) (req : Req) (res : ResSt)
    (groups : Caps) (tried : List String) : DispatchResult :=
  let req := { req with
    params := groups.foldl (fun ps kv => upsertAssoc kv.1 kv.2 ps) req.params }
  let res := req.validateEffect (req.parseEffect res)
  if res.isError then
    ⟨res, req, some route.rid, tried, false⟩
  else
    match route.middleware with
    | none => ⟨route.handler req res, req, some route.rid, tried, true⟩
    | some mws =>
      let r := mwExec req mws (route.handler req) res
      ⟨r.res, req, some route.rid, tried, r.handlerRan⟩

/-- The cache/security staging of the route handler closure: the route's
cache-control options are staged (GET only) for application when the
response begins, and the security headers are set outright. -/
def stageHeaders (route : Route) (req : Req) (res : ResSt) : ResSt :=
  let res :=
    if req.method = "GET" then
      match route.cache with
      | some c => res.stageCache c
      | none => res
    else res
  match route.security with
  | some s => Response.security res s
  | none => res

/-- The route handler closure of `execute` once a route was found for the
method: pin the route, stage cache (GET only) and security headers, run the
authentication block with its 401/403 early returns, then finish. -/
def dispatchRoute (route : Route) (req : Req) (res : ResSt)
    (groups : Caps) : DispatchResult :=
  let res := stageHeaders route req res
  if stratTruthy route.auth then
    let r := authLoop req (stratListOf route.auth)
    let req1 := r.1
    let isAuth := r.2.1
    let tried := r.2.2
    if isAuth = false ∧ isOptionalOf route.auth = false then
      ⟨Response.unauthorized res, req1, some route.rid, tried, false⟩
    else
      match scopeOf route.auth with
      | some sp =>
        if Request.isAuthorized req1 sp then finishDispatch route req1 res groups tried
        else ⟨Response.forbidden res, req1, some route.rid, tried, false⟩
      | none => finishDispatch route req1 res groups tried
  else finishDispatch route req res groups []

/-- The route handler closure of `execute`: resolve the method (exact, then
wildcard), answering 405 with the `allow` header when neither exists. -/
def dispatch (mapping : RouteMapping) (req : Req) (res : ResSt)
    (groups : Caps) : DispatchResult :=
  match methodRoute mapping.methods req.method with
  | none =>
    ⟨Response.methodNotAllowed res (mapping.methods.map (·.1)), req, none, [], false⟩
  | some route => dispatchRoute route req res groups

/-- Models `RouterHandler.execute`: walk the map in order; the first matching
entry is dispatched (wrapped in the router middleware when the router
declares any); no match answers 404. -/
def execute (req : Req) (res : ResSt) : RouteMap → ResSt
  | [] => Response.notFound res
  | ke :: rest =>
    match regexMatch ke.2.pattern ke.2.ci req.pathname with
    | none => execute req res rest
    | some groups =>
      match ke.2.router with
      | some { middleware := some mws } =>
        (mwExec req mws (fun r => (dispatch ke.2 req r groups).res) res).res
      | _ => (dispatch ke.2 req res groups).res

end RouterHandler

/-! ## Server lifecycle (`server.ts`)

`shutdown()` returns immediately when the flag is already set, and
otherwise sets it — synchronously, before its first suspension point, so
under the single-threaded event loop any later (even interleaved)
invocation observes the flag — and then performs the teardown sequence:
stop accepting, drain in-flight requests (bounded), close sockets
(bounded), destroy data providers.  We record the teardown phases in a log.

`requestHandler` wraps each connection into a `Req`/`ResSt` pair — with the
shutdown flag snapshot taken at creation — and runs the middleware chain
with the router as final handler. -/

namespace Server

/-- The teardown phases of the shutdown sequence, in order. -/
def teardownSteps : List String :=
  ["stop-accepting", "drain-requests", "close-sockets", "destroy-providers"]

/-- The process-wide server lifecycle state. -/
structure ServerModel where
  isShuttingDown : Bool := false
  teardownLog : List String := []
deriving DecidableEq, Repr

/-- Models `Server.shutdown`. -/
def shutdown (s : ServerModel) : ServerModel :=
  if s.isShuttingDown then s
  else { isShuttingDown := true, teardownLog := s.teardownLog ++ teardownSteps }

/-- Models `Server.requestHandler`: build the request (snapshotting the shutdown
flag) and a fresh response, then run the global middleware chain with
`routerHandler.execute` as the final handler. -/
def handleRequest (isShuttingDown : Bool) (appMws : List MW)
    (map : RouteMap) (req0 : Req) : MWResult :=
  let req := { req0 with isShuttingDown := isShuttingDown }
  mwExec req (middlewareHandlerStack appMws)
    (fun res => RouterHandler.execute req res map) ResSt.init

end Server

/-! ## Body size budget (`Request.parse`, non-multipart branch)

`parse` determines `maxBytes` (`route.payload?.maxBytes || 1MB`, so `0`
also falls back) and declares `let receivedBytes = 0` with the comment
"Track the total size of received data chunks".  The `data` listener then
runs, per chunk: `receivedBytes = chunk.length` (an assignment), a
`receivedBytes > maxBytes` check that sets 413 and resolves the promise,
and an unconditional `chunks.push(chunk)`; nothing detaches the listener or
destroys the stream, so every later chunk is processed and buffered all the
same.  Chunk sizes are modelled by `String.length` (the bodies involved are
ASCII, where `Buffer.byteLength` agrees). -/

namespace Request

/-- The default maximum payload size (1MB). -/
def defaultMaxPayloadBytes : Nat := 1048576

/-- Models `this.route.payload?.maxBytes || 1 * 1024 * 1024`. -/
def effectiveMaxBytes (route : Route) : Nat :=
  match route.payload with
  | some p =>
    match p.maxBytes with
    | some n => if n = 0 then defaultMaxPayloadBytes else n
    | none => defaultMaxPayloadBytes
  | none => defaultMaxPayloadBytes

/-- The state of the non-multipart body accumulation. -/
structure ParseState where
  receivedBytes : Nat := 0
  chunks : List String := []
  /-- Status set through `this.res` (413 on the size check). -/
  resStatus : Option Nat := none
  /-- Whether `resolve()` has been called. -/
  resolved : Bool := false
deriving DecidableEq, Repr

/-- The `data` listener: `receivedBytes = chunk.length;` then the budget
check (413 + resolve), then `chunks.push(chunk)`, exactly in source
order. -/
def onDataChunk (maxBytes : Nat) (st : ParseState) (chunk : String) : ParseState :=
  let st := { st with receivedBytes := chunk.length }
  let st :=
    if st.receivedBytes > maxBytes then
      { st with resStatus := some 413, resolved := true }
    else st
  { st with chunks := st.chunks ++ [chunk] }

/-- The accumulation phase over a whole sequence of received chunks. -/
def parseDataPhase (maxBytes : Nat) (chunks : List String) : ParseState :=
  chunks.foldl (onDataChunk maxBytes) {}

/-- Total bytes across all received chunks (the budget the claim and the
source's own comment describe). -/
def totalBytes (chunks : List String) : Nat :=
  (chunks.map String.length).sum

end Request

/-! ## Theorems -/

/-! ### Middleware chain ordering (C5, C7) -/

/-- Characterization of the continuation-passing execution: the trace of
invoked interceptors counts up contiguously from the start index, every
invoked interceptor except possibly the last one called `next`, and the
final handler runs exactly when the whole list was invoked and every
invocation called `next`. -/
theorem mwExecAux_spec (req : Req) (handler : ResSt → ResSt) :
    ∀ (mws : List MW) (i : Nat) (res : ResSt),
      ((mwExecAux req handler mws i res).invoked.map Prod.fst
        = List.range' i (mwExecAux req handler mws i res).invoked.length)
      ∧ (∀ e ∈ (mwExecAux req handler mws i res).invoked.dropLast, e.2 = true)
      ∧ ((mwExecAux req handler mws i res).handlerRan = true ↔
          ((mwExecAux req handler mws i res).invoked.length = mws.length
            ∧ ∀ e ∈ (mwExecAux req handler mws i res).invoked, e.2 = true)) := by
  intro mws
  induction mws with
  | nil =>
    intro i res
    simp [mwExecAux]
  | cons mw rest ih =>
    intro i res
    cases h : mw req res with
    | halt res' =>
      refine ⟨?_, ?_, ?_⟩
      · simp [mwExecAux, h, List.range'_succ i 0 1]
      · simp [mwExecAux, h]
      · simp [mwExecAux, h]
    | pass res' =>
      have ihr := ih (i + 1) res'
      refine ⟨?_, ?_, ?_⟩
      · simp only [mwExecAux, h, List.map_cons, List.length_cons]
        rw [List.range'_succ i _ 1, ihr.1]
      · simp only [mwExecAux, h]
        cases hinv : (mwExecAux req handler rest (i + 1) res').invoked with
        | nil => simp
        | cons e tail =>
          rw [List.dropLast_cons_of_ne_nil (by simp)]
          intro x hx
          rcases List.mem_cons.mp hx with h1 | h2
          · simp [h1]
          · have := ihr.2.1
            rw [hinv] at this
            exact this x (by simpa [hinv] using h2)
      · simp only [mwExecAux, h, List.length_cons]
        constructor
        · intro hr
          have := ihr.2.2.mp hr
          refine ⟨by rw [this.1], ?_⟩
          intro e he
          rcases List.mem_cons.mp he with h1 | h2
          · simp [h1]
          · exact this.2 e h2
        · intro hcfg
          apply ihr.2.2.mpr
          refine ⟨by omega, ?_⟩
          intro e he
          exact hcfg.2 e (List.mem_cons_of_mem _ he)

/-- C5: `execute` runs the interceptors strictly in registration order via
the index-carrying continuation — the invocation trace is exactly the
indices `0, 1, …` in order — the final handler is called exactly when every
interceptor in the list was invoked and called `next()`, an interceptor
that returns without calling `next()` is the last one invoked (so the
remaining interceptors and the final handler are never run), and the
`MiddlewareHandler` constructor registers the logging, shutdown-rejection
and trailing-slash middlewares ahead of all application middleware. -/
theorem middleware_execute_order_shortcircuit
    (req : Req) (mws app : List MW) (handler : ResSt → ResSt) (res : ResSt) :
    ((mwExec req mws handler res).invoked.map Prod.fst
      = List.range (mwExec req mws handler res).invoked.length)
    ∧ (∀ e ∈ (mwExec req mws handler res).invoked.dropLast, e.2 = true)
    ∧ ((mwExec req mws handler res).handlerRan = true ↔
        ((mwExec req mws handler res).invoked.length = mws.length
          ∧ ∀ e ∈ (mwExec req mws handler res).invoked, e.2 = true))
    ∧ middlewareHandlerStack app
        = [loggerMiddleware, shutdownMiddleware, noTrailingSlashMiddleware] ++ app := by
  have h := mwExecAux_spec req handler mws 0 res
  refine ⟨?_, h.2.1, h.2.2, rfl⟩
  rw [List.range_eq_range']
  exact h.1

/-- A concrete three-interceptor chain whose middle interceptor
short-circuits, used to witness the ordering theorem. -/
def mwChainExample : List MW :=
  [fun _ res => .pass res, fun _ res => .halt (res.setStatus 204),
   fun _ res => .pass res]

/-- Witness for C5 at a concrete three-interceptor chain whose second
interceptor short-circuits: the trace is the contiguous index list and the
handler-ran equivalence holds there. -/
theorem middleware_execute_order_shortcircuit_witness :
    ((mwExec {} mwChainExample id ResSt.init).invoked.map Prod.fst
      = List.range (mwExec {} mwChainExample id ResSt.init).invoked.length)
    ∧ ((mwExec {} mwChainExample id ResSt.init).handlerRan = true ↔
        ((mwExec {} mwChainExample id ResSt.init).invoked.length = 3
          ∧ ∀ e ∈ (mwExec {} mwChainExample id ResSt.init).invoked, e.2 = true)) := by
  have h := middleware_execute_order_shortcircuit {} mwChainExample [] id ResSt.init
  exact ⟨h.1, h.2.2.1⟩

/-! ### Shutdown rejection (C7) and shutdown idempotence (C8) -/

/-- C7: `shutdown` leaves the flag set no matter the starting state (the
transition is one-directional), and every request handled while the flag is
set — `requestHandler` snapshots it into the request — is answered by the
shutdown-rejection middleware with status 503 and a `connection: close`
header: the logger runs first (and passes), the shutdown middleware halts,
and neither any later middleware nor the router (the final handler) is ever
invoked, regardless of the registered application middleware, the route
map, and the rest of the request. -/
theorem shutdown_rejects_requests_with_503 :
    (∀ s : Server.ServerModel, (Server.shutdown s).isShuttingDown = true)
    ∧ (∀ (appMws : List MW) (map : RouteMap) (req0 : Req),
        Server.handleRequest true appMws map req0 =
          ⟨(ResSt.init.setHeader "connection" "close").setStatus 503,
            [(0, true), (1, false)], false⟩) := by
  constructor
  · intro s
    by_cases h : s.isShuttingDown
    · simp [Server.shutdown, h]
    · simp [Server.shutdown, h]
  · intro appMws map req0
    rfl

/-- C8: `Server.shutdown` is idempotent — the guard on the already-set flag
makes a second invocation a no-op — so two invocations starting from a
fresh server produce exactly one teardown sequence (one stop-accepting
step, one request drain, one socket-close pass, one provider teardown). -/
theorem server_shutdown_idempotent :
    (∀ s : Server.ServerModel, Server.shutdown (Server.shutdown s) = Server.shutdown s)
    ∧ (Server.shutdown (Server.shutdown {})).teardownLog = Server.teardownSteps := by
  constructor
  · intro s
    by_cases h : s.isShuttingDown
    · simp [Server.shutdown, h]
    · simp [Server.shutdown, h]
  · rfl

/-! ### Body size budget (C2) -/

/-- A route configuring a 4-byte payload budget, exercising the size
check. -/
def smallBudgetRoute : Route :=
  { method := .one "POST", path := "/upload",
    payload := some { maxBytes := some 4 } }

/-- C2 evidence: the `data` listener compares each chunk's own size — not
the cumulative total — against the budget, and keeps buffering after any
413.  With a 4-byte budget, a body of chunks `"abc"` then `"de"` totals 5
bytes yet is fully buffered with no 413 ever set; and even when a single
chunk (`"abcde"`) exceeds the budget and 413 is set, the chunk is still
pushed and the following chunk is still processed and buffered, so the full
body is buffered in every case. -/
theorem request_parse_budget_checks_chunk_not_total :
    Request.effectiveMaxBytes smallBudgetRoute = 4
    ∧ Request.totalBytes ["abc", "de"] > 4
    ∧ Request.parseDataPhase 4 ["abc", "de"]
        = { receivedBytes := 2, chunks := ["abc", "de"],
            resStatus := none, resolved := false }
    ∧ (Request.parseDataPhase 4 ["abcde", "fg"]).resStatus = some 413
    ∧ (Request.parseDataPhase 4 ["abcde", "fg"]).chunks = ["abcde", "fg"] := by
  decide

/-! ### Route selection order (C1) -/

/-- When lookup misses, no entry carries the key. -/
theorem lookup_none_not_mem {α : Type} (k : String) (m : List (String × α))
    (h : lookupAssoc k m = none) :
    ∀ a b, (a, b) ∈ m → a ≠ k := by
  induction m with
  | nil => simp
  | cons kv rest ih =>
    obtain ⟨k', v⟩ := kv
    simp only [lookupAssoc] at h
    by_cases hk : k' = k
    · rw [if_pos hk] at h
      cases h
    · rw [if_neg hk] at h
      intro a b hab
      rcases List.mem_cons.mp hab with h1 | h2
      · cases h1
        exact hk
      · exact ih h a b h2

/-- When a key has no binding, filtering it out changes nothing. -/
theorem filter_ne_of_lookup_none {α : Type} (k : String) (m : List (String × α))
    (h : lookupAssoc k m = none) :
    m.filter (fun ke => ke.1 ≠ k) = m := by
  apply List.filter_eq_self.mpr
  intro kv hkv
  obtain ⟨a, b⟩ := kv
  simpa using lookup_none_not_mem k m h a b hkv

/-- C1: route selection after `start()` is first-registered-wins with the
catch-all demoted to the very end: for any registered route list and any
request path, `execute`'s selection over the started map equals — first —
the first-registered matching entry among the non-catch-all entries (the
map preserves registration order, so overlapping non-catch-all patterns
resolve to the earliest registration), and only when none of them matches
does the reserved catch-all entry get to answer; hence the catch-all never
wins over a more specific matching pattern regardless of the order in which
the routes were registered. -/
theorem router_select_first_registered_catch_all_last (rs : List Route) (p : String) :
    RouterHandler.executeSelect
        (RouterHandler.start (RouterHandler.registerRoutes rs)) p
      = Option.or
          (RouterHandler.executeSelect
            ((RouterHandler.registerRoutes rs).filter
              (fun ke => ke.1 ≠ catchAllRoutePath)) p)
          ((lookupAssoc catchAllRoutePath (RouterHandler.registerRoutes rs)).bind
            (fun e => (regexMatch e.pattern e.ci p).map
              (fun caps => (catchAllRoutePath, caps)))) := by
  unfold RouterHandler.start
  cases h : lookupAssoc catchAllRoutePath (RouterHandler.registerRoutes rs) with
  | none =>
    rw [filter_ne_of_lookup_none _ _ h]
    simp
  | some e =>
    simp only [RouterHandler.executeSelect, List.findSome?_append]
    cases hr : regexMatch e.pattern e.ci p <;>
      simp [List.findSome?_cons, hr]

/-! ### Method resolution (C3) -/

/-- Looking a key up right after upserting it yields the new value. -/
theorem lookup_upsert_self {α : Type} (k : String) (v : α) (l : List (String × α)) :
    lookupAssoc k (upsertAssoc k v l) = some v := by
  induction l with
  | nil => simp [upsertAssoc, lookupAssoc]
  | cons kv rest ih =>
    obtain ⟨k', v'⟩ := kv
    by_cases hk : k' = k
    · simp [upsertAssoc, lookupAssoc, hk]
    · simp [upsertAssoc, lookupAssoc, hk, ih]

/-- Models `finishDispatch` always pins the route it was given. -/
theorem finishDispatch_pinned (route : Route) (req : Req) (res : ResSt)
    (groups : Caps) (tried : List String) :
    (RouterHandler.finishDispatch route req res groups tried).pinned
      = some route.rid := by
  simp only [RouterHandler.finishDispatch]
  split
  · rfl
  · split <;> rfl

/-- Models `finishDispatch` reports exactly the strategies it was handed. -/
theorem finishDispatch_attempts (route : Route) (req : Req) (res : ResSt)
    (groups : Caps) (tried : List String) :
    (RouterHandler.finishDispatch route req res groups tried).attempts = tried := by
  simp only [RouterHandler.finishDispatch]
  split
  · rfl
  · split <;> rfl

/-- Whatever happens after method resolution, the resolved route is the one
pinned onto the request. -/
theorem dispatchRoute_pinned (route : Route) (req : Req) (res : ResSt)
    (groups : Caps) :
    (RouterHandler.dispatchRoute route req res groups).pinned = some route.rid := by
  simp only [RouterHandler.dispatchRoute]
  split
  · split
    · rfl
    · split
      · split
        · exact finishDispatch_pinned ..
        · rfl
      · exact finishDispatch_pinned ..
  · exact finishDispatch_pinned ..

/-- C3: method resolution within a matched entry looks the exact request
method up in the entry's method record and dispatches its route; when the
exact method is absent it falls back to a `*` binding if one exists; and
when neither exists the dispatch answers 405 — pinning no route and never
invoking a handler — with the `allow` header carrying the alphabetically
sorted, comma-joined list of the entry's supported methods. -/
theorem dispatch_method_resolution (mapping : RouteMapping) (req : Req)
    (res : ResSt) (groups : Caps) :
    (∀ r, lookupAssoc req.method mapping.methods = some r →
      (RouterHandler.dispatch mapping req res groups).pinned = some r.rid)
    ∧ (lookupAssoc req.method mapping.methods = none →
        ∀ r, lookupAssoc "*" mapping.methods = some r →
          (RouterHandler.dispatch mapping req res groups).pinned = some r.rid)
    ∧ (lookupAssoc req.method mapping.methods = none →
        lookupAssoc "*" mapping.methods = none →
          (RouterHandler.dispatch mapping req res groups).res.status = 405
          ∧ (mapping.methods ≠ [] →
              (RouterHandler.dispatch mapping req res groups).res.getHeader "allow"
                = some (joinComma (sortStrings (mapping.methods.map (·.1)))))
          ∧ (RouterHandler.dispatch mapping req res groups).handlerRan = false
          ∧ (RouterHandler.dispatch mapping req res groups).pinned = none) := by
  refine ⟨?_, ?_, ?_⟩
  · intro r hr
    simp only [RouterHandler.dispatch, RouterHandler.methodRoute, hr]
    exact dispatchRoute_pinned ..
  · intro hnone r hstar
    simp only [RouterHandler.dispatch, RouterHandler.methodRoute, hnone, hstar]
    exact dispatchRoute_pinned ..
  · intro hnone hstar
    simp only [RouterHandler.dispatch, RouterHandler.methodRoute, hnone, hstar]
    refine ⟨?_, ?_, trivial, trivial⟩
    · simp only [Response.methodNotAllowed]
      split <;> rfl
    · intro hne
      simp only [Response.methodNotAllowed]
      rw [if_neg (by simp [List.isEmpty_iff, List.map_eq_nil_iff, hne])]
      exact lookup_upsert_self ..

/-- A route answering GET and POST, the spec's method-resolution example. -/
def getPostRoute : Route :=
  { method := .many ["GET", "POST"], path := "/x", rid := 2 }

/-- Its route-table entry. -/
def getPostMapping : RouteMapping :=
  { pattern := "^/x$", ci := true,
    methods := [("GET", getPostRoute), ("POST", getPostRoute)] }

/-- Witness for C3: the GET/POST entry dispatches both GET and POST to the
route, and a DELETE request is answered 405 with `allow: GET, POST`. -/
theorem dispatch_method_resolution_witness :
    ((RouterHandler.dispatch getPostMapping { method := "DELETE", pathname := "/x" }
        ResSt.init []).res.status = 405
      ∧ (RouterHandler.dispatch getPostMapping { method := "DELETE", pathname := "/x" }
          ResSt.init []).res.getHeader "allow" = some "GET, POST")
    ∧ (RouterHandler.dispatch getPostMapping { method := "POST", pathname := "/x" }
        ResSt.init []).pinned = some 2
    ∧ (RouterHandler.dispatch getPostMapping { method := "GET", pathname := "/x" }
        ResSt.init []).pinned = some 2 := by
  have hD := dispatch_method_resolution getPostMapping
    { method := "DELETE", pathname := "/x" } ResSt.init []
  have hP := dispatch_method_resolution getPostMapping
    { method := "POST", pathname := "/x" } ResSt.init []
  have hG := dispatch_method_resolution getPostMapping
    { method := "GET", pathname := "/x" } ResSt.init []
  have h405 := hD.2.2 rfl rfl
  have heq : joinComma (sortStrings (getPostMapping.methods.map (·.1)))
      = "GET, POST" := by decide
  exact ⟨⟨h405.1, heq ▸ h405.2.1 (by simp [getPostMapping])⟩,
    hP.1 getPostRoute rfl, hG.1 getPostRoute rfl⟩

/-! ### Authentication (C6) -/

/-- A failing authentication attempt leaves the request untouched: both the
unknown-strategy path and the not-authenticated path return the request
as it was. -/
theorem authenticate_fail_eq (req : Req) (s : String)
    (h : (Request.authenticate req s).2 = false) :
    Request.authenticate req s = (req, false) := by
  cases hs : req.strategies s with
  | none => simp [Request.authenticate, hs]
  | some a =>
    simp only [Request.authenticate, hs] at h ⊢
    by_cases ha : a.isAuthenticated = true
    · rw [if_pos ha] at h
      cases h
    · rw [if_neg ha]

/-- When every strategy fails, the loop tries them all in order and leaves
the request unauthenticated. -/
theorem authLoop_all_fail (req : Req) (l : List String)
    (h : ∀ s ∈ l, (Request.authenticate req s).2 = false) :
    RouterHandler.authLoop req l = (req, false, l) := by
  induction l with
  | nil => rfl
  | cons s rest ih =>
    have hs := authenticate_fail_eq req s (h s (List.mem_cons_self s rest))
    simp only [RouterHandler.authLoop, hs]
    rw [ih (fun x hx => h x (List.mem_cons_of_mem s hx))]

/-- When the strategies before `s` fail and `s` authenticates, the loop
stops at `s`: the attempts are exactly the declaration-order prefix through
`s`, and the request carries `s`'s authentication. -/
theorem authLoop_first_success (req : Req) (pre : List String) (s : String)
    (post : List String)
    (hpre : ∀ x ∈ pre, (Request.authenticate req x).2 = false)
    (hs : (Request.authenticate req s).2 = true) :
    RouterHandler.authLoop req (pre ++ s :: post)
      = ((Request.authenticate req s).1, true, pre ++ [s]) := by
  induction pre with
  | nil =>
    simp only [List.nil_append]
    have : Request.authenticate req s = ((Request.authenticate req s).1, true) := by
      rw [← hs]
    unfold RouterHandler.authLoop
    rw [this]
  | cons p rest ih =>
    have hp := authenticate_fail_eq req p (hpre p (List.mem_cons_self p rest))
    have ihh := ih (fun x hx => hpre x (List.mem_cons_of_mem p hx))
    rw [List.cons_append]
    simp only [RouterHandler.authLoop, hp, ihh]
    simp

/-- Models `finishDispatch` never answers 401 or 403 itself (the parse/validate
stages and the chain may set other statuses, but the two authentication
statuses are produced before it only). -/
theorem dispatchRoute_skips_auth_when_not_declared (route : Route) (req : Req)
    (res : ResSt) (groups : Caps) (h : stratTruthy route.auth = false) :
    RouterHandler.dispatchRoute route req res groups
      = RouterHandler.finishDispatch route req
          (RouterHandler.stageHeaders route req res) groups [] := by
  simp only [RouterHandler.dispatchRoute, h]
  simp

/-- C6: for a matched route declaring authentication strategies, dispatch
tries the strategies in declaration order until one authenticates; when all
fail and authentication is not optional the response is 401; when one
succeeds but the authenticated principal lacks a declared required scope
the response is 403; in both failure cases the route handler is never
invoked, and the attempted-strategy trace is the declaration-order prefix
through the first success (or the whole list when none succeeds). -/
theorem dispatch_auth_strategies (mapping : RouteMapping) (route : Route)
    (req : Req) (res : ResSt) (groups : Caps)
    (hmr : RouterHandler.methodRoute mapping.methods req.method = some route)
    (hstrat : stratTruthy route.auth = true) :
    ((∀ s ∈ stratListOf route.auth, (Request.authenticate req s).2 = false) →
      isOptionalOf route.auth = false →
        (RouterHandler.dispatch mapping req res groups).res.status = 401
        ∧ (RouterHandler.dispatch mapping req res groups).handlerRan = false
        ∧ (RouterHandler.dispatch mapping req res groups).attempts
            = stratListOf route.auth)
    ∧ (∀ pre s post, stratListOf route.auth = pre ++ s :: post →
        (∀ x ∈ pre, (Request.authenticate req x).2 = false) →
        (Request.authenticate req s).2 = true →
          (RouterHandler.dispatch mapping req res groups).attempts = pre ++ [s]
          ∧ (∀ sp, scopeOf route.auth = some sp →
              Request.isAuthorized (Request.authenticate req s).1 sp = false →
                (RouterHandler.dispatch mapping req res groups).res.status = 403
                ∧ (RouterHandler.dispatch mapping req res groups).handlerRan
                    = false)) := by
  constructor
  · intro hfail hopt
    simp only [RouterHandler.dispatch, hmr]
    simp only [RouterHandler.dispatchRoute, hstrat,
      authLoop_all_fail req _ hfail, hopt]
    simp [Response.unauthorized, ResSt.setStatus]
  · intro pre s post hsplit hpre hs
    have hloop := authLoop_first_success req pre s post hpre hs
    constructor
    · simp only [RouterHandler.dispatch, hmr]
      simp only [RouterHandler.dispatchRoute, hstrat, hsplit, hloop]
      cases hsc : scopeOf route.auth with
      | none => simp [hsc, finishDispatch_attempts]
      | some sp =>
        by_cases hauth :
            Request.isAuthorized (Request.authenticate req s).1 sp = true
        · simp [hsc, hauth, finishDispatch_attempts]
        · simp [hsc, hauth, finishDispatch_attempts]
    · intro sp hsc hnauth
      simp only [RouterHandler.dispatch, hmr]
      simp only [RouterHandler.dispatchRoute, hstrat, hsplit, hloop]
      simp [hsc, hnauth, Response.forbidden, ResSt.setStatus]

/-- Auth options declaring strategies `s1, s2` and required scope `+adm`. -/
def authOptsExample : RouteAuthOptions :=
  { strategy := some (.many ["s1", "s2"]), scope := some (.one "+adm") }

/-- A GET route protected by `authOptsExample`. -/
def authRouteExample : Route :=
  { method := .one "GET", path := "/s", rid := 3, auth := some authOptsExample }

/-- Its route-table entry. -/
def authMappingExample : RouteMapping :=
  { pattern := "^/s$", ci := true, methods := [("GET", authRouteExample)] }

/-- An oracle where only strategy `s2` authenticates, granting scope `usr`
(but not `adm`). -/
def authOracleExample : String → Option RequestAuthData := fun s =>
  if s = "s2" then some { isAuthenticated := true, scopes := some ["usr"] }
  else none

/-- A request carrying a credential `s2` accepts. -/
def authReqExample : Req :=
  { method := "GET", pathname := "/s", strategies := authOracleExample }

/-- A request carrying no usable credential. -/
def noCredReqExample : Req := { method := "GET", pathname := "/s" }

/-- Witness for C6: on the protected route, the credential-less request is
answered 401 after trying `s1` then `s2`, and the request whose principal
authenticates via `s2` but lacks scope `adm` is answered 403; neither ever
reaches the route handler. -/
theorem dispatch_auth_strategies_witness :
    ((RouterHandler.dispatch authMappingExample noCredReqExample
        ResSt.init []).res.status = 401
      ∧ (RouterHandler.dispatch authMappingExample noCredReqExample
          ResSt.init []).handlerRan = false
      ∧ (RouterHandler.dispatch authMappingExample noCredReqExample
          ResSt.init []).attempts = ["s1", "s2"])
    ∧ ((RouterHandler.dispatch authMappingExample authReqExample
        ResSt.init []).attempts = ["s1", "s2"]
      ∧ (RouterHandler.dispatch authMappingExample authReqExample
          ResSt.init []).res.status = 403
      ∧ (RouterHandler.dispatch authMappingExample authReqExample
          ResSt.init []).handlerRan = false) := by
  have h1 := dispatch_auth_strategies authMappingExample authRouteExample
    noCredReqExample ResSt.init [] rfl rfl
  have h2 := dispatch_auth_strategies authMappingExample authRouteExample
    authReqExample ResSt.init [] rfl rfl
  have ha := h1.1 (by decide) rfl
  have hb := h2.2 ["s1"] "s2" [] rfl (by decide) (by decide)
  have hc := hb.2 (Request.ScopeSpec.one "+adm") rfl (by decide)
  exact ⟨⟨ha.1, ha.2.1, ha.2.2⟩, ⟨hb.1, hc.1, hc.2⟩⟩

/-! ### Pattern compilation and matching (C4) -/

/-- The tail of the dispatch pipeline copies the named captures into the
request's parameter map (`req.params[key] = match.groups[key]`), whatever
happens afterwards. -/
theorem finishDispatch_params (route : Route) (req : Req) (res : ResSt)
    (groups : Caps) (tried : List String) :
    (RouterHandler.finishDispatch route req res groups tried).req.params
      = groups.foldl (fun ps kv => upsertAssoc kv.1 kv.2 ps) req.params := by
  simp only [RouterHandler.finishDispatch]
  split
  · rfl
  · split <;> rfl

/-- The route of the spec's `/users/{id}` example. -/
def usersRoute : Route :=
  { method := .one "GET", path := "/users/\x7bid\x7d", rid := 4 }

/-- Its compiled route-table entry, as `addRoute` creates it. -/
def usersMapping : RouteMapping :=
  { pattern := "^/users/(?<id>[^/]+)$", ci := true,
    methods := [("GET", usersRoute)] }

/-- C4: pattern compilation anchors every compiled matcher at both ends and
compiles case-insensitively exactly unless the route opts into case
sensitivity; a `\x7bname\x7d` placeholder becomes the named capture
`(?<name>[^/]+)` and a `\x7bname:regex\x7d` placeholder carries its custom
regex; matching behaves accordingly on the spec's examples — `/users/42`
matches with capture `id = "42"`, `/users/` and `/users/42/extra` do not
match, the match is case-insensitive for a case-insensitive route and
case-sensitive otherwise — registration produces exactly the compiled
entry, and on dispatch the named captures are copied into the request's
parameter map (shown in general and on the concrete example). -/
theorem route_pattern_compile_match_params :
    (∀ (p : String) (cs : Bool),
        (compileRouteRegex p cs).1.data = '^' :: compileBody p.data ++ ['$']
        ∧ (compileRouteRegex p cs).2 = !cs)
    ∧ compileRouteRegex "/users/\x7bid\x7d" false
        = ("^/users/(?<id>[^/]+)$", true)
    ∧ compileRouteRegex "/\x7bpath:.*\x7d" false = ("^/(?<path>.*)$", true)
    ∧ compileRouteRegex "/users/\x7bid\x7d" true
        = ("^/users/(?<id>[^/]+)$", false)
    ∧ regexMatch "^/users/(?<id>[^/]+)$" true "/users/42" = some [("id", "42")]
    ∧ regexMatch "^/users/(?<id>[^/]+)$" true "/users/" = none
    ∧ regexMatch "^/users/(?<id>[^/]+)$" true "/users/42/extra" = none
    ∧ regexMatch "^/users/(?<id>[^/]+)$" true "/USERS/42" = some [("id", "42")]
    ∧ regexMatch "^/users/(?<id>[^/]+)$" false "/USERS/42" = none
    ∧ RouterHandler.executeSelect
        (RouterHandler.registerRoutes [usersRoute]) "/users/42"
        = some ("/users/\x7bid\x7d", [("id", "42")])
    ∧ (∀ (route : Route) (req : Req) (res : ResSt) (groups : Caps)
          (tried : List String),
        (RouterHandler.finishDispatch route req res groups tried).req.params
          = groups.foldl (fun ps kv => upsertAssoc kv.1 kv.2 ps) req.params)
    ∧ (RouterHandler.dispatch usersMapping
        { method := "GET", pathname := "/users/42" } ResSt.init
        [("id", "42")]).req.params = [("id", "42")] := by
  refine ⟨fun p cs => ⟨rfl, rfl⟩, ?_, ?_, ?_, ?_, ?_, ?_, ?_, ?_, ?_,
    finishDispatch_params, ?_⟩
  all_goals decide

/-! ### Un-terminated placeholders (C9)

The brace-counting scan stops when the braces balance *or the pattern
ends*: an unclosed `\x7bname` therefore yields the same parameter text — and
hence the same compiled regex — as `\x7bname\x7d`, and `new RegExp` accepts it, so
registration raises no error and the route simply works. -/

/-- Models `compileBodyF` of the empty path is empty at any fuel. -/
theorem compileBodyF_nil (f : Nat) : compileBodyF f [] = [] := by
  cases f <;> rfl

/-- The brace scan of a brace-free parameter consumes the whole text. -/
theorem scanParam_no_braces (name : List Char) :
    '{' ∉ name → '}' ∉ name →
      ∀ acc, scanParam name 1 acc = (acc.reverse ++ name, []) := by
  induction name with
  | nil => intro _ _ acc; simp [scanParam]
  | cons c rest ih =>
    intro h1 h2 acc
    have hc1 : ¬(c = '{') := fun h => h1 (by simp [h])
    have hc2 : ¬(c = '}') := fun h => h2 (by simp [h])
    have hr := ih (fun h => h1 (List.mem_cons_of_mem _ h))
      (fun h => h2 (List.mem_cons_of_mem _ h)) (c :: acc)
    simp [scanParam, hc1, hc2, hr]

/-- The brace scan of a brace-terminated brace-free parameter returns the
same parameter text, consuming the closing brace. -/
theorem scanParam_closed (name : List Char) :
    '{' ∉ name → '}' ∉ name →
      ∀ acc, scanParam (name ++ ['}']) 1 acc = (acc.reverse ++ name, []) := by
  induction name with
  | nil => intro _ _ acc; simp [scanParam]
  | cons c rest ih =>
    intro h1 h2 acc
    have hc1 : ¬(c = '{') := fun h => h1 (by simp [h])
    have hc2 : ¬(c = '}') := fun h => h2 (by simp [h])
    have hr := ih (fun h => h1 (List.mem_cons_of_mem _ h))
      (fun h => h2 (List.mem_cons_of_mem _ h)) (c :: acc)
    simp [scanParam, hc1, hc2, hr]

/-- An un-terminated trailing placeholder compiles to the same body as its
brace-terminated form. -/
theorem compileBodyF_unterminated (name : List Char)
    (hn1 : '{' ∉ name) (hn2 : '}' ∉ name) :
    ∀ (pre : List Char) (f₁ f₂ : Nat), '{' ∉ pre →
      (pre ++ '{' :: name).length < f₁ →
      (pre ++ '{' :: name ++ ['}']).length < f₂ →
      compileBodyF f₁ (pre ++ '{' :: name)
        = compileBodyF f₂ (pre ++ '{' :: name ++ ['}']) := by
  intro pre
  induction pre with
  | nil =>
    intro f₁ f₂ _ h₁ h₂
    cases f₁ with
    | zero => omega
    | succ f₁ =>
      cases f₂ with
      | zero => omega
      | succ f₂ =>
        simp [compileBodyF, scanParam_no_braces name hn1 hn2 [],
          scanParam_closed name hn1 hn2 [], compileBodyF_nil]
  | cons c pre ih =>
    intro f₁ f₂ hpre h₁ h₂
    have hc : ¬(c = '{') := fun h => hpre (by simp [h])
    cases f₁ with
    | zero => omega
    | succ f₁ =>
      cases f₂ with
      | zero => omega
      | succ f₂ =>
        have hih := ih f₁ f₂ (fun h => hpre (List.mem_cons_of_mem _ h))
          (by simp at h₁ ⊢; omega) (by simp at h₂ ⊢; omega)
        simp only [List.cons_append, compileBodyF, hc, if_false]
        simpa using congrArg (fun l => escapeChar c ++ l) hih

/-- C9 counterexample: registering the un-terminated pattern `/users/\x7bid`
raises no configuration error — it compiles to exactly the same (valid)
matcher as `/users/\x7bid\x7d` — and at request time it matches `/users/42`
normally; no failure is reported at registration or request time. -/
theorem unterminated_placeholder_counterexample :
    compileRouteRegex "/users/\x7bid" false
        = compileRouteRegex "/users/\x7bid\x7d" false
    ∧ compileRouteRegex "/users/\x7bid" false = ("^/users/(?<id>[^/]+)$", true)
    ∧ regexMatch (compileRouteRegex "/users/\x7bid" false).1
        (compileRouteRegex "/users/\x7bid" false).2 "/users/42"
        = some [("id", "42")] := by
  decide

/-- C9 amended: an un-terminated placeholder is not a registration-time
configuration error; the scan treats the end of the pattern as closing the
placeholder, so for any brace-free prefix and placeholder name the pattern
with an unclosed `\x7bname` compiles to exactly the regex of the
brace-terminated pattern and the route behaves identically thereafter. -/
theorem unterminated_placeholder_same_regex (pre name : List Char) (cs : Bool)
    (hpre : '{' ∉ pre) (hn1 : '{' ∉ name) (hn2 : '}' ∉ name) :
    compileRouteRegex (String.mk (pre ++ '{' :: name)) cs
      = compileRouteRegex (String.mk (pre ++ '{' :: name ++ ['}'])) cs := by
  have h := compileBodyF_unterminated name hn1 hn2 pre
    ((pre ++ '{' :: name).length + 1) ((pre ++ '{' :: name ++ ['}']).length + 1)
    hpre (by omega) (by omega)
  simp only [compileRouteRegex, compileBody]
  rw [h]

/-- Witness for the amended C9 at the concrete pattern `/users/\x7bid`. -/
theorem unterminated_placeholder_same_regex_witness :
    compileRouteRegex (String.mk ("/users/".data ++ '{' :: "id".data)) false
      = compileRouteRegex
          (String.mk ("/users/".data ++ '{' :: "id".data ++ ['}'])) false := by
  exact unterminated_placeholder_same_regex "/users/".data "id".data false
    (by decide) (by decide) (by decide)

/-! ### Scope authorization (C10) -/

/-- The prefix-modifier loop, characterized: it succeeds exactly when every
`+`-prefixed scope is granted, no `!`-prefixed scope is granted, and the
accumulated `OR` scopes together with the unprefixed remainder are empty or
contain a granted one. -/
theorem isAuthorizedLoop_eq (granted : List String) :
    ∀ (rest acc : List String),
      Request.isAuthorizedLoop granted rest acc
        = ((rest.all fun s =>
              if headIs s '+' then granted.contains (s.drop 1)
              else if headIs s '!' then !granted.contains (s.drop 1)
              else true)
            && ((acc ++ rest.filter
                  (fun s => !(headIs s '+') && !(headIs s '!'))).isEmpty
              || (acc ++ rest.filter
                  (fun s => !(headIs s '+') && !(headIs s '!'))).any
                    granted.contains)) := by
  intro rest
  induction rest with
  | nil =>
    intro acc
    simp [Request.isAuthorizedLoop]
  | cons s rest ih =>
    intro acc
    by_cases hp : headIs s '+' = true
    · by_cases hg : granted.contains (s.drop 1) = true
      · have hg' : s.drop 1 ∈ granted := by simpa using hg
        simp [Request.isAuthorizedLoop, hp, hg', ih acc, ← Bool.and_assoc]
      · have hg' : ¬(s.drop 1 ∈ granted) := by simpa using hg
        simp [Request.isAuthorizedLoop, hp, hg']
    · by_cases hb : headIs s '!' = true
      · by_cases hg : granted.contains (s.drop 1) = true
        · have hg' : s.drop 1 ∈ granted := by simpa using hg
          simp [Request.isAuthorizedLoop, hp, hb, hg']
        · have hg' : ¬(s.drop 1 ∈ granted) := by simpa using hg
          simp [Request.isAuthorizedLoop, hp, hb, hg', ih acc, ← Bool.and_assoc]
      · simp only [Request.isAuthorizedLoop, hp, hb, if_false, ih (acc ++ [s])]
        simp [hp, hb, List.append_assoc, ← Bool.and_assoc]

/-- C10: `Request.isAuthorized` returns `false` whenever the request's
authentication carries no granted scopes (absent or empty), and otherwise
it returns `true` exactly when every requested scope prefixed `+` has its
body granted, every requested scope prefixed `!` has its body absent, and —
whenever any unprefixed scope is requested — at least one unprefixed
requested scope is granted: unprefixed scopes are OR-ed, prefixed ones are
mandatory conditions. -/
theorem request_isAuthorized_scope_semantics (req : Req)
    (scope : Request.ScopeSpec) :
    ((req.auth.scopes = none ∨ req.auth.scopes = some []) →
        Request.isAuthorized req scope = false)
    ∧ (∀ granted, req.auth.scopes = some granted → granted ≠ [] →
        (Request.isAuthorized req scope = true ↔
          ((∀ s ∈ scope.toList, headIs s '+' = true →
              s.drop 1 ∈ granted)
           ∧ (∀ s ∈ scope.toList, headIs s '+' = false → headIs s '!' = true →
              ¬(s.drop 1 ∈ granted))
           ∧ ((∃ s ∈ scope.toList, headIs s '+' = false ∧ headIs s '!' = false) →
              ∃ s ∈ scope.toList, (headIs s '+' = false ∧ headIs s '!' = false)
                  ∧ s ∈ granted)))) := by
  constructor
  · intro h
    rcases h with h | h <;> simp [Request.isAuthorized, h]
  · intro granted hsc hne
    simp only [Request.isAuthorized, hsc]
    rw [if_neg (by simp [List.isEmpty_iff, hne])]
    rw [isAuthorizedLoop_eq granted scope.toList []]
    simp only [List.nil_append, Bool.and_eq_true, Bool.or_eq_true,
      List.all_eq_true, List.any_eq_true, List.isEmpty_iff,
      List.filter_eq_nil_iff, List.mem_filter]
    constructor
    · rintro ⟨hall, hor⟩
      refine ⟨?_, ?_, ?_⟩
      · intro s hs hp
        have h := hall s hs
        rw [if_pos hp] at h
        simpa using h
      · intro s hs hp hb
        have h := hall s hs
        rw [if_neg (by simp [hp]), if_pos hb] at h
        simpa using h
      · rintro ⟨s, hs, hp, hb⟩
        rcases hor with hemp | ⟨t, ⟨ht, hpred⟩, hcont⟩
        · exact absurd (by simp [hp, hb]) (hemp s hs)
        · refine ⟨t, ht, ?_, by simpa using hcont⟩
          have hu : headIs t '+' = false ∧ headIs t '!' = false := by
            simpa using hpred
          exact hu
    · rintro ⟨c1, c2, c3⟩
      constructor
      · intro s hs
        by_cases hp : headIs s '+' = true
        · rw [if_pos hp]
          simpa using c1 s hs hp
        · by_cases hb : headIs s '!' = true
          · rw [if_neg (by simp [hp]), if_pos hb]
            simpa using c2 s hs (by simpa using hp) hb
          · rw [if_neg (by simp [hp]), if_neg (by simp [hb])]
      · by_cases hex : ∃ s ∈ scope.toList, headIs s '+' = false ∧ headIs s '!' = false
        · obtain ⟨t, ht, hu, hcont⟩ := c3 hex
          right
          exact ⟨t, ⟨ht, by simp [hu.1, hu.2]⟩, by simpa using hcont⟩
        · left
          intro s hs
          simp only [Bool.and_eq_true, Bool.not_eq_true']
          intro hcontra
          exact hex ⟨s, hs, hcontra⟩

/-- Witness for C10: a request whose authentication grants no scopes is
never authorized (even for a purely negative requirement), and a principal
granted `["usr"]` is authorized for `["+usr", "!adm", "x", "usr"]` but not
for `["+adm"]`. -/
theorem request_isAuthorized_scope_semantics_witness :
    Request.isAuthorized {} (Request.ScopeSpec.one "!adm") = false
    ∧ Request.isAuthorized
        { auth := { isAuthenticated := true, scopes := some ["usr"] } }
        (Request.ScopeSpec.many ["+usr", "!adm", "x", "usr"]) = true
    ∧ Request.isAuthorized
        { auth := { isAuthenticated := true, scopes := some ["usr"] } }
        (Request.ScopeSpec.one "+adm") = false := by
  have h1 := (request_isAuthorized_scope_semantics {}
    (Request.ScopeSpec.one "!adm")).1 (Or.inl rfl)
  have h2 := ((request_isAuthorized_scope_semantics
    { auth := { isAuthenticated := true, scopes := some ["usr"] } }
    (Request.ScopeSpec.many ["+usr", "!adm", "x", "usr"])).2 ["usr"] rfl
    (by decide)).mpr (by decide)
  have h3 := (request_isAuthorized_scope_semantics
    { auth := { isAuthenticated := true, scopes := some ["usr"] } }
    (Request.ScopeSpec.one "+adm")).2 ["usr"] rfl (by decide)
  refine ⟨h1, h2, ?_⟩
  by_cases h : Request.isAuthorized
      { auth := { isAuthenticated := true, scopes := some ["usr"] } }
      (Request.ScopeSpec.one "+adm") = true
  · have := (h3.mp h).1 "+adm" (by decide) (by decide)
    exact absurd this (by decide)
  · simpa using h

end Slate
